import Mathlib

/-!
Shallow embedding of the R-App reporting frontend's client-side
cache / filter / render pipeline (the single-page dashboard controller,
`src/unnamed/part_002`), together with theorems settling the frozen
claims about it.

Conventions:
* JS strings are modelled as `List Char` where character-level structure
  matters (tokenization, substring checks) and as `String` elsewhere.
* JS objects used as string-keyed maps are modelled as association lists
  with JS property-assignment semantics (`objSet` replaces in place).
* Fallible JS code (functions that `throw`) returns `Except String _`.
-/

namespace RApp

/-! ## Tokenization of manual ID-list inputs

Embeds `text.split(/[,;\s]+/).map(s => s.trim()).filter(Boolean)` from
`getListFromInput` / `validateBatchFilters`: the result is the list of
maximal runs of non-separator characters.  The per-token `trim()` is the
identity because every whitespace character is itself a separator, and
`filter(Boolean)` drops exactly the empty pieces that `split` produces at
separator boundaries. -/

/-- A character matched by the separator class `[,;\s]`. -/
def isSepChar (c : Char) : Bool :=
  c = ',' || c = ';' || c.isWhitespace

/-- Worker for `tokenize`: `acc` holds the current token, reversed. -/
def tokenizeGo : List Char → List Char → List (List Char)
  | [], acc => if acc.isEmpty then [] else [acc.reverse]
  | c :: rest, acc =>
    if isSepChar c then
      if acc.isEmpty then tokenizeGo rest []
      else acc.reverse :: tokenizeGo rest []
    else tokenizeGo rest (c :: acc)

/-- Embeds `text.split(/[,;\s]+/).map(trim).filter(Boolean)`. -/
def tokenize (text : List Char) : List (List Char) :=
  tokenizeGo text []

/-- JS `String.prototype.trim()`: strip whitespace from both ends. -/
def jsTrim (l : List Char) : List Char :=
  ((l.dropWhile Char.isWhitespace).reverse.dropWhile Char.isWhitespace).reverse

/-- Every token produced by `tokenizeGo` is nonempty and free of
separator characters (provided the accumulated partial token is). -/
theorem tokenizeGo_tokens_sepFree (l : List Char) :
    ∀ acc, (∀ c ∈ acc, isSepChar c = false) →
      ∀ t ∈ tokenizeGo l acc, t ≠ [] ∧ ∀ c ∈ t, isSepChar c = false := by
  induction l with
  | nil =>
    intro acc hacc t ht
    simp only [tokenizeGo] at ht
    by_cases h : acc.isEmpty
    · simp [h] at ht
    · simp [h] at ht
      subst ht
      refine ⟨by simpa [List.isEmpty_iff] using h, ?_⟩
      intro c hc
      exact hacc c (List.mem_reverse.mp hc)
  | cons c rest ih =>
    intro acc hacc t ht
    simp only [tokenizeGo] at ht
    by_cases hsep : isSepChar c
    · simp only [hsep, if_true] at ht
      by_cases hemp : acc.isEmpty
      · simp only [hemp, if_true] at ht
        exact ih [] (by simp) t ht
      · simp only [hemp, if_false] at ht
        rcases List.mem_cons.mp ht with h | h
        · subst h
          refine ⟨by simpa [List.isEmpty_iff] using hemp, ?_⟩
          intro d hd
          exact hacc d (List.mem_reverse.mp hd)
        · exact ih [] (by simp) t h
    · simp only [hsep, if_false] at ht
      refine ih (c :: acc) ?_ t ht
      intro d hd
      rcases List.mem_cons.mp hd with h | h
      · subst h; simpa using hsep
      · exact hacc d h

/-- Every token of `tokenize` is nonempty and separator-free. -/
theorem tokenize_tokens_sepFree (text : List Char) :
    ∀ t ∈ tokenize text, t ≠ [] ∧ ∀ c ∈ t, isSepChar c = false :=
  tokenizeGo_tokens_sepFree text [] (by simp)

/-! ### A concrete family of large inputs

`manyTokens n` is the text `a,a,…,a,` consisting of `n` copies of `a,`;
it tokenizes to `n` single-character tokens and is untouched by `trim`. -/

/-- The input text consisting of `n` copies of the two characters `a,`. -/
def manyTokens (n : Nat) : List Char :=
  (List.replicate n ['a', ',']).flatten

theorem manyTokens_zero : manyTokens 0 = [] := rfl

theorem manyTokens_succ (n : Nat) :
    manyTokens (n + 1) = 'a' :: ',' :: manyTokens n := by
  simp [manyTokens, List.replicate_succ]

theorem tokenize_manyTokens (n : Nat) :
    tokenize (manyTokens n) = List.replicate n ['a'] := by
  induction n with
  | zero => rfl
  | succ n ih =>
    rw [manyTokens_succ]
    show tokenizeGo ('a' :: ',' :: manyTokens n) [] = _
    have ha : isSepChar 'a' = false := by decide
    have hc : isSepChar ',' = true := by decide
    simp only [tokenizeGo, ha, hc, if_false, if_true, List.isEmpty_cons,
      Bool.false_eq_true, List.reverse_cons, List.reverse_nil,
      List.nil_append, List.replicate_succ]
    exact congrArg _ ih

theorem manyTokens_reverse_head (n : Nat) :
    ∃ t, (manyTokens (n + 1)).reverse = ',' :: t := by
  induction n with
  | zero => exact ⟨['a'], rfl⟩
  | succ n ih =>
    rcases ih with ⟨t, ht⟩
    refine ⟨t ++ [',', 'a'], ?_⟩
    rw [manyTokens_succ (n + 1)]
    show (['a', ','] ++ manyTokens (n + 1)).reverse = _
    rw [List.reverse_append, ht]
    rfl

theorem jsTrim_manyTokens (n : Nat) :
    jsTrim (manyTokens n) = manyTokens n := by
  cases n with
  | zero => rfl
  | succ n =>
    unfold jsTrim
    rw [manyTokens_succ]
    rw [List.dropWhile_cons_of_neg (by decide)]
    rw [← manyTokens_succ]
    rcases manyTokens_reverse_head n with ⟨t, ht⟩
    rw [ht, List.dropWhile_cons_of_neg (by decide), ← ht,
      List.reverse_reverse]

/-! ## Manual ID-list extraction (`getListFromInput`) -/

/-- The error message thrown when an unbatched list exceeds 500 entries
(`Te excediste de 500 SKU! ... Se detectaron N valores ...`). -/
def oversizeError (originalCount : Nat) : String :=
  "Te excediste de 500 SKU!, el limite son 500. Se detectaron " ++
    toString originalCount ++
    " valores. Para procesar mas de 500, activa la opcion Procesar por lotes."

/-- Embeds `getListFromInput(input, allowBatching)`: trim the raw input,
return `null` when empty, tokenize, and throw when more than 500 values
are present without batching enabled. -/
def getListFromInput (input : List Char) (allowBatching : Bool) :
    Except String (Option (List (List Char))) :=
  let text := jsTrim input
  if text.isEmpty then .ok none
  else
    let values := tokenize text
    if 500 < values.length && !allowBatching then
      .error (oversizeError values.length)
    else
      .ok (if 0 < values.length then some values else none)

/-! ## Batch validation (`validateBatchFilters`) and chunking -/

/-- Which manual ID-list field drives batch processing. -/
inductive BatchType where
  | hijo
  | padre
deriving DecidableEq

/-- The record returned by `validateBatchFilters`. -/
structure BatchValidation where
  valid : Bool
  error : Option String
  needsBatching : Bool
  batchType : Option BatchType
  batchValues : List (List Char)
  totalBatches : Nat
deriving DecidableEq

/-- The conflict error raised when both ID-list fields require batching
at once. -/
def batchConflictError : String :=
  "No puedes procesar por lotes ambos filtros (SKU Hijo y SKU Padre) simultaneamente. Por favor, desactiva uno de los checkboxes de Procesar por lotes."

/-- Embeds `validateBatchFilters()`: reject when both fields exceed 500
with both batch checkboxes active; otherwise pick the (at most one)
field that needs batching. -/
def validateBatchFilters (hijoInput padreInput : List Char)
    (hijoEnabled padreEnabled : Bool) : BatchValidation :=
  let hijoText := jsTrim hijoInput
  let padreText := jsTrim padreInput
  if hijoText.isEmpty && padreText.isEmpty then
    ⟨true, none, false, none, [], 0⟩
  else
    let hijoValues := if hijoText.isEmpty then [] else tokenize hijoText
    let padreValues := if padreText.isEmpty then [] else tokenize padreText
    let hijoExceeds500 := 500 < hijoValues.length
    let padreExceeds500 := 500 < padreValues.length
    if hijoEnabled && padreEnabled && hijoExceeds500 && padreExceeds500 then
      ⟨false, some batchConflictError, false, none, [], 0⟩
    else
      let bt : Option BatchType × List (List Char) :=
        if hijoEnabled && hijoExceeds500 then (some .hijo, hijoValues)
        else if padreEnabled && padreExceeds500 then (some .padre, padreValues)
        else (none, [])
      ⟨true, none, bt.1.isSome, bt.1, bt.2,
        if 0 < bt.2.length then (bt.2.length + 499) / 500 else 0⟩

/-- Embeds the chunking loop of `handleBatchProcessing`:
`for (i = 0; i < values.length; i += 500) batches.push(values.slice(i, i + 500))`. -/
def chunk500 (l : List (List Char)) : List (List (List Char)) :=
  if l.isEmpty then [] else l.take 500 :: chunk500 (l.drop 500)
termination_by l.length
decreasing_by
  simp only [List.length_drop]
  have hpos : 0 < l.length := by
    cases l
    · simp_all
    · simp
  omega

theorem chunk500_nil : chunk500 [] = [] := by
  unfold chunk500
  rfl

theorem chunk500_cons (l : List (List Char)) (h : l ≠ []) :
    chunk500 l = l.take 500 :: chunk500 (l.drop 500) := by
  rw [chunk500]
  simp [List.isEmpty_iff, h]

theorem chunk500_flatten_bounded (n : Nat) :
    ∀ l : List (List Char), l.length ≤ n → (chunk500 l).flatten = l := by
  induction n with
  | zero =>
    intro l hl
    have : l = [] := by
      rw [← List.length_eq_zero]
      omega
    simp [this, chunk500_nil]
  | succ n ih =>
    intro l hl
    cases hne : l with
    | nil => simp [chunk500_nil]
    | cons a rest =>
      rw [← hne, chunk500_cons l (by simp [hne])]
      have hlen : 0 < l.length := by simp [hne]
      have hdrop : (chunk500 (l.drop 500)).flatten = l.drop 500 := by
        refine ih (l.drop 500) ?_
        simp only [List.length_drop]
        omega
      simp [hdrop]

/-- The chunks concatenate back to the full value list (no value is
dropped or duplicated by batching). -/
theorem chunk500_flatten (l : List (List Char)) :
    (chunk500 l).flatten = l :=
  chunk500_flatten_bounded l.length l (Nat.le_refl _)

theorem chunk500_mem_length_le_bounded (n : Nat) :
    ∀ l : List (List Char), l.length ≤ n →
      ∀ c ∈ chunk500 l, c.length ≤ 500 := by
  induction n with
  | zero =>
    intro l hl
    have : l = [] := by
      rw [← List.length_eq_zero]
      omega
    simp [this, chunk500_nil]
  | succ n ih =>
    intro l hl
    cases hne : l with
    | nil => simp [chunk500_nil]
    | cons a rest =>
      rw [← hne, chunk500_cons l (by simp [hne])]
      intro c hc
      rcases List.mem_cons.mp hc with h | h
      · subst h
        simp
      · have hlen : 0 < l.length := by simp [hne]
        refine ih (l.drop 500) ?_ c h
        simp only [List.length_drop]
        omega

/-- Each chunk holds at most 500 values. -/
theorem chunk500_mem_length_le (l : List (List Char)) :
    ∀ c ∈ chunk500 l, c.length ≤ 500 :=
  chunk500_mem_length_le_bounded l.length l (Nat.le_refl _)

theorem chunk500_length_bounded (n : Nat) :
    ∀ l : List (List Char), l.length ≤ n → l ≠ [] →
      (chunk500 l).length = (l.length + 499) / 500 := by
  induction n with
  | zero =>
    intro l hl h
    exact absurd (by rw [← List.length_eq_zero]; omega) h
  | succ n ih =>
    intro l hl h
    rw [chunk500_cons l h]
    have hlen : 0 < l.length := List.length_pos.mpr h
    by_cases hle : l.length ≤ 500
    · have hdrop : l.drop 500 = [] := by
        rw [← List.length_eq_zero]
        simp only [List.length_drop]
        omega
      rw [hdrop, chunk500_nil]
      simp only [List.length_cons, List.length_nil]
      omega
    · have hdroplen : (l.drop 500).length = l.length - 500 := by
        simp [List.length_drop]
      have hdropne : l.drop 500 ≠ [] := by
        rw [← List.length_pos]
        omega
      have hrec := ih (l.drop 500) (by omega) hdropne
      simp only [List.length_cons, hrec, hdroplen]
      omega

/-- The number of chunks is `ceil(n / 500)`. -/
theorem chunk500_length (l : List (List Char)) (h : l ≠ []) :
    (chunk500 l).length = (l.length + 499) / 500 :=
  chunk500_length_bounded l.length l (Nat.le_refl _) h

/-! ## Filter payload assembly (`getFilterPayload`) and the
apply-filters gate (`handleApplyFilters`, batch-validation portion) -/

/-- The manual-filter DOM inputs and batch checkboxes read by
`getFilterPayload` / `validateBatchFilters`. -/
structure FilterInputs where
  skuHijo : List Char
  skuPadre : List Char
  ticket : List Char
  lineamiento : List Char
  batchHijo : Bool
  batchPadre : Bool

/-- The manual ID-list portion of the `FilterRequest` payload built by
`getFilterPayload` (the column/value filters, pagination and display
columns are orthogonal to the claims and omitted). -/
structure FilterPayload where
  sku_hijo_manual_list : Option (List (List Char))
  sku_padre_manual_list : Option (List (List Char))
  ticket_manual_list : Option (List (List Char))
  lineamiento_manual_list : Option (List (List Char))
deriving DecidableEq

/-- Embeds `getFilterPayload()`: each manual list field is produced by
`getListFromInput`, whose `throw` aborts payload construction. -/
def getFilterPayload (inp : FilterInputs) : Except String FilterPayload := do
  let hijo ← getListFromInput inp.skuHijo inp.batchHijo
  let padre ← getListFromInput inp.skuPadre inp.batchPadre
  let ticket ← getListFromInput inp.ticket false
  let lineamiento ← getListFromInput inp.lineamiento false
  return { sku_hijo_manual_list := hijo
           sku_padre_manual_list := padre
           ticket_manual_list := ticket
           lineamiento_manual_list := lineamiento }

/-- Outcome of the batch-validation gate at the top of
`handleApplyFilters` (the part of the control flow the batching claims
are about). -/
inductive ApplyOutcome where
  | rejectedConflict (msg : String)
  | batched (batchType : BatchType) (batches : List (List (List Char)))
  | payloadError (msg : String)
  | normalRequest (payload : FilterPayload)

/-- Embeds the start of `handleApplyFilters`: run `validateBatchFilters`;
an invalid result is alerted and the handler returns; a batching result
goes to `handleBatchProcessing` (which chunks the values by 500);
otherwise the payload is built and one filter request is issued. -/
def applyFiltersGate (inp : FilterInputs) : ApplyOutcome :=
  let v := validateBatchFilters inp.skuHijo inp.skuPadre inp.batchHijo inp.batchPadre
  if !v.valid then .rejectedConflict (v.error.getD "")
  else
    match v.batchType with
    | some bt => .batched bt (chunk500 v.batchValues)
    | none =>
      match getFilterPayload inp with
      | .error msg => .payloadError msg
      | .ok p => .normalRequest p

/-- Network requests issued by each outcome of the gate: none on
rejection or validation error, one filter request on the normal path,
and one filter plus one export request per batch. -/
def requestsIssued : ApplyOutcome → Nat
  | .rejectedConflict _ => 0
  | .payloadError _ => 0
  | .batched _ batches => 2 * batches.length
  | .normalRequest _ => 1

/-- An input with at least one token is nonempty after trimming. -/
theorem tokenize_pos_isEmpty {t : List Char}
    (h : 0 < (tokenize t).length) : t.isEmpty = false := by
  cases t with
  | nil => simp [tokenize, tokenizeGo] at h
  | cons c rest => rfl

/-- C3: a manual ID list of exactly 500 tokens triggers neither an error
nor batching; more than 500 tokens with batching disabled makes payload
construction fail fast with a descriptive error instead of truncating;
501 tokens with batching enabled is partitioned into 2 chunks (500 + 1);
and in general n > 500 tokens with batching enabled are partitioned into
ceil(n/500) sequentially processed chunks of at most 500 values whose
concatenation is the whole list. -/
theorem batch_size_classification (input : List Char) (n : Nat)
    (hn : (tokenize (jsTrim input)).length = n) :
    (n = 500 →
      getListFromInput input false = .ok (some (tokenize (jsTrim input))) ∧
      (validateBatchFilters input [] true false).needsBatching = false) ∧
    (500 < n → getListFromInput input false = .error (oversizeError n)) ∧
    (500 < n →
      (validateBatchFilters input [] true false).needsBatching = true ∧
      (validateBatchFilters input [] true false).batchValues =
        tokenize (jsTrim input) ∧
      (validateBatchFilters input [] true false).totalBatches =
        (n + 499) / 500 ∧
      (chunk500 (tokenize (jsTrim input))).length = (n + 499) / 500 ∧
      (∀ c ∈ chunk500 (tokenize (jsTrim input)), c.length ≤ 500) ∧
      (chunk500 (tokenize (jsTrim input))).flatten =
        tokenize (jsTrim input)) ∧
    (n = 501 →
      (chunk500 (tokenize (jsTrim input))).map List.length = [500, 1]) := by
  refine ⟨?_, ?_, ?_, ?_⟩
  · intro h
    have hpos : 0 < (tokenize (jsTrim input)).length := by omega
    have hne := tokenize_pos_isEmpty hpos
    constructor
    · simp [getListFromInput, hne, hn, h, hpos]
    · simp [validateBatchFilters, hne, hn, h]
  · intro h
    have hpos : 0 < (tokenize (jsTrim input)).length := by omega
    have hne := tokenize_pos_isEmpty hpos
    simp [getListFromInput, hne, hn, h]
  · intro h
    have hpos : 0 < (tokenize (jsTrim input)).length := by omega
    have hne := tokenize_pos_isEmpty hpos
    have hvne : tokenize (jsTrim input) ≠ [] := by
      intro hh
      rw [hh] at hn
      simp at hn
      omega
    refine ⟨?_, ?_, ?_, ?_, chunk500_mem_length_le _, chunk500_flatten _⟩
    · simp [validateBatchFilters, hne, hn, h]
    · simp [validateBatchFilters, hne, hn, h]
    · simp [validateBatchFilters, hne, hn, h]
      omega
    · rw [chunk500_length _ hvne, hn]
  · intro h
    have hlen : (tokenize (jsTrim input)).length = 501 := by omega
    have hvne : tokenize (jsTrim input) ≠ [] := by
      intro hh
      rw [hh] at hlen
      simp at hlen
    have hdlen : ((tokenize (jsTrim input)).drop 500).length = 1 := by
      simp [List.length_drop, hlen]
    have hdne : (tokenize (jsTrim input)).drop 500 ≠ [] := by
      rw [← List.length_pos]
      omega
    have hdd : ((tokenize (jsTrim input)).drop 500).drop 500 = [] := by
      apply List.drop_eq_nil_of_le
      omega
    have hdt : ((tokenize (jsTrim input)).drop 500).take 500 =
        (tokenize (jsTrim input)).drop 500 :=
      List.take_of_length_le (by omega)
    rw [chunk500_cons _ hvne, chunk500_cons _ hdne, hdt, hdd, chunk500_nil]
    simp [List.length_take, hlen, hdlen]

/-- Witness for C3 at concrete inputs: 500 tokens pass untouched and
unbatched, 501 tokens error out without batching, and with batching they
split into chunks of 500 and 1. -/
theorem batch_size_classification_witness :
    (getListFromInput (manyTokens 500) false =
        .ok (some (tokenize (jsTrim (manyTokens 500)))) ∧
      (validateBatchFilters (manyTokens 500) [] true false).needsBatching =
        false) ∧
    getListFromInput (manyTokens 501) false = .error (oversizeError 501) ∧
    (validateBatchFilters (manyTokens 501) [] true false).totalBatches = 2 ∧
    (chunk500 (tokenize (jsTrim (manyTokens 501)))).map List.length =
      [500, 1] := by
  have h500 : (tokenize (jsTrim (manyTokens 500))).length = 500 := by
    rw [jsTrim_manyTokens, tokenize_manyTokens, List.length_replicate]
  have h501 : (tokenize (jsTrim (manyTokens 501))).length = 501 := by
    rw [jsTrim_manyTokens, tokenize_manyTokens, List.length_replicate]
  have t500 := batch_size_classification (manyTokens 500) 500 h500
  have t501 := batch_size_classification (manyTokens 501) 501 h501
  refine ⟨t500.1 rfl, t501.2.1 (by omega), ?_, t501.2.2.2 rfl⟩
  have htot := (t501.2.2.1 (by omega)).2.2.1
  rw [htot]

/-- C4: when the SKU hijo and SKU padre manual lists both exceed 500
entries with batch processing enabled on both, the apply-filters gate
rejects the request with the conflict error and issues zero network
requests; the conflict is never resolved by picking one list. -/
theorem batch_conflict_rejection (inp : FilterInputs)
    (hh : 500 < (tokenize (jsTrim inp.skuHijo)).length)
    (hp : 500 < (tokenize (jsTrim inp.skuPadre)).length)
    (bh : inp.batchHijo = true) (bp : inp.batchPadre = true) :
    (validateBatchFilters inp.skuHijo inp.skuPadre inp.batchHijo
        inp.batchPadre).valid = false ∧
    applyFiltersGate inp = ApplyOutcome.rejectedConflict batchConflictError ∧
    requestsIssued (applyFiltersGate inp) = 0 := by
  have hne1 : (jsTrim inp.skuHijo).isEmpty = false :=
    tokenize_pos_isEmpty (by omega)
  have hne2 : (jsTrim inp.skuPadre).isEmpty = false :=
    tokenize_pos_isEmpty (by omega)
  have hveq : validateBatchFilters inp.skuHijo inp.skuPadre inp.batchHijo
      inp.batchPadre = ⟨false, some batchConflictError, false, none, [], 0⟩ := by
    simp [validateBatchFilters, hne1, hne2, bh, bp, hh, hp]
  have hgate : applyFiltersGate inp =
      ApplyOutcome.rejectedConflict batchConflictError := by
    simp [applyFiltersGate, hveq]
  refine ⟨by rw [hveq], hgate, ?_⟩
  rw [hgate]
  rfl

/-- Witness for C4: two 501-token lists with both batch checkboxes on
are rejected as a conflict, with zero requests issued. -/
theorem batch_conflict_rejection_witness :
    (validateBatchFilters (manyTokens 501) (manyTokens 501) true true).valid =
      false ∧
    applyFiltersGate ⟨manyTokens 501, manyTokens 501, [], [], true, true⟩ =
      ApplyOutcome.rejectedConflict batchConflictError ∧
    requestsIssued
      (applyFiltersGate ⟨manyTokens 501, manyTokens 501, [], [], true, true⟩) =
      0 := by
  have hlen : (tokenize (jsTrim (manyTokens 501))).length = 501 := by
    rw [jsTrim_manyTokens, tokenize_manyTokens, List.length_replicate]
  have h5 : 500 < (tokenize (jsTrim (manyTokens 501))).length := by omega
  exact batch_conflict_rejection
    ⟨manyTokens 501, manyTokens 501, [], [], true, true⟩ h5 h5 rfl rfl

/-- C9 fails as stated: the tokenizer does not deduplicate, so the input
`A,A` is placed into the payload as the two-element list `A`, `A`, which
contains a duplicate. -/
theorem payload_dedup_counterexample :
    getFilterPayload ⟨['A', ',', 'A'], [], [], [], false, false⟩ =
      .ok ⟨some [['A'], ['A']], none, none, none⟩ ∧
    ¬ ([['A'], ['A']] : List (List Char)).Nodup := by
  constructor
  · rfl
  · decide

/-- C9 (amended): every manual ID list placed into the FilterRequest
payload is exactly the `[,;\s]+` tokenization of its (trimmed) input
field — nonempty, separator-free tokens with duplicates preserved, not
removed — and is size-bounded: a list, more than 500 tokens long, of a
field without batching enabled aborts payload construction with a
descriptive error instead of being truncated. -/
theorem payload_list_tokenize_bounded :
    (∀ (input : List Char) (allowB : Bool) (vs : List (List Char)),
      getListFromInput input allowB = .ok (some vs) →
        vs = tokenize (jsTrim input) ∧ vs ≠ [] ∧
        (∀ t ∈ vs, t ≠ [] ∧ ∀ c ∈ t, isSepChar c = false) ∧
        (allowB = false → vs.length ≤ 500)) ∧
    (∀ (input : List Char) (n : Nat),
      (tokenize (jsTrim input)).length = n → 500 < n →
        getListFromInput input false = .error (oversizeError n)) ∧
    (∀ (inp : FilterInputs) (p : FilterPayload),
      getFilterPayload inp = .ok p →
        getListFromInput inp.skuHijo inp.batchHijo =
          .ok p.sku_hijo_manual_list ∧
        getListFromInput inp.skuPadre inp.batchPadre =
          .ok p.sku_padre_manual_list ∧
        getListFromInput inp.ticket false = .ok p.ticket_manual_list ∧
        getListFromInput inp.lineamiento false =
          .ok p.lineamiento_manual_list) := by
  refine ⟨?_, ?_, ?_⟩
  · intro input allowB vs h
    unfold getListFromInput at h
    by_cases hE : (jsTrim input).isEmpty
    · simp [hE] at h
    · simp only [hE, Bool.false_eq_true, if_false] at h
      have hbound : allowB = false →
          ¬ 500 < (tokenize (jsTrim input)).length := by
        intro hB hlt
        rw [hB] at h
        simp [hlt] at h
      have hmain : (if 0 < (tokenize (jsTrim input)).length
          then some (tokenize (jsTrim input)) else none) = some vs := by
        by_cases hlt : 500 < (tokenize (jsTrim input)).length
        · cases hAB : allowB with
          | false => rw [hAB] at h; simp [hlt] at h
          | true => rw [hAB] at h; simpa using h
        · simpa [hlt] using h
      by_cases hpos : 0 < (tokenize (jsTrim input)).length
      · rw [if_pos hpos] at hmain
        have hvs : vs = tokenize (jsTrim input) := by
          simpa using hmain.symm
        subst hvs
        refine ⟨rfl, ?_, tokenize_tokens_sepFree _, ?_⟩
        · intro hc
          rw [hc] at hpos
          simp at hpos
        · intro hB
          have := hbound hB
          omega
      · rw [if_neg hpos] at hmain
        simp at hmain
  · intro input n hn hgt
    have hpos : 0 < (tokenize (jsTrim input)).length := by omega
    have hne := tokenize_pos_isEmpty hpos
    simp [getListFromInput, hne, hn, hgt]
  · intro inp p h
    unfold getFilterPayload at h
    cases h1 : getListFromInput inp.skuHijo inp.batchHijo with
    | error e => rw [h1] at h; simp [Bind.bind, Except.bind] at h
    | ok hijo =>
      rw [h1] at h
      cases h2 : getListFromInput inp.skuPadre inp.batchPadre with
      | error e => rw [h2] at h; simp [Bind.bind, Except.bind] at h
      | ok padre =>
        rw [h2] at h
        cases h3 : getListFromInput inp.ticket false with
        | error e => rw [h3] at h; simp [Bind.bind, Except.bind] at h
        | ok ticket =>
          rw [h3] at h
          cases h4 : getListFromInput inp.lineamiento false with
          | error e => rw [h4] at h; simp [Bind.bind, Except.bind] at h
          | ok lineamiento =>
            rw [h4] at h
            simp only [Bind.bind, Except.bind, pure, Except.pure,
              Except.ok.injEq] at h
            subst h
            exact ⟨rfl, rfl, rfl, rfl⟩

/-- Witness for C9 (amended): the token list of the field `a` is placed
as-is, and a 501-token field without batching errors out. -/
theorem payload_list_tokenize_bounded_witness :
    ([['a']] = tokenize (jsTrim ['a']) ∧ ([['a']] : List (List Char)) ≠ [] ∧
      (∀ t ∈ ([['a']] : List (List Char)),
        t ≠ [] ∧ ∀ c ∈ t, isSepChar c = false) ∧
      (false = false → ([['a']] : List (List Char)).length ≤ 500)) ∧
    getListFromInput (manyTokens 501) false = .error (oversizeError 501) := by
  constructor
  · exact payload_list_tokenize_bounded.1 ['a'] false [['a']] rfl
  · refine payload_list_tokenize_bounded.2.1 (manyTokens 501) 501 ?_ (by omega)
    rw [jsTrim_manyTokens, tokenize_manyTokens, List.length_replicate]

/-! ## Result classification after a filter query (`handleApplyFilters`) -/

/-- The filtered row count and not-found breakdown of a
`/api/data/filter` response, as read by `handleApplyFilters`. -/
structure FilterResponseCounts where
  row_count_filtered : Nat
  skus_no_encontrados_hijo : List String
  skus_no_encontrados_padre : List String
  tickets_no_encontrados : List String
  lineamientos_no_encontrados : List String

/-- Embeds `totalNoEncontrados`: size of the consolidated not-found breakdown
(`[...hijo, ...padre].length + tickets.length + lineamientos.length`). -/
def totalNoEncontrados (r : FilterResponseCounts) : Nat :=
  (r.skus_no_encontrados_hijo.length + r.skus_no_encontrados_padre.length) +
    r.tickets_no_encontrados.length + r.lineamientos_no_encontrados.length

/-- Which modal `handleApplyFilters` shows for a filter result. -/
inductive ResultModal where
  | emptyResults
  | partialResults
deriving DecidableEq

/-- Embeds the modal-selection logic of `handleApplyFilters`: a modal is
shown only when some searched values were not found
(`totalNoEncontrados > 0`); the empty-results modal when
`totalEncontrados = row_count_filtered` is zero, else the
partial-results modal. -/
def classifyFilterResult (r : FilterResponseCounts) : Option ResultModal :=
  if 0 < totalNoEncontrados r then
    if r.row_count_filtered = 0 then some .emptyResults
    else some .partialResults
  else none

/-- C5: found = 0 with not-found > 0 is classified as no matches (the
empty-results modal); found > 0 with not-found > 0 is classified as
partial (the partial-results modal); not-found = 0 shows no modal. -/
theorem result_classification (r : FilterResponseCounts) :
    (r.row_count_filtered = 0 → 0 < totalNoEncontrados r →
      classifyFilterResult r = some ResultModal.emptyResults) ∧
    (0 < r.row_count_filtered → 0 < totalNoEncontrados r →
      classifyFilterResult r = some ResultModal.partialResults) ∧
    (totalNoEncontrados r = 0 → classifyFilterResult r = none) := by
  refine ⟨?_, ?_, ?_⟩
  · intro h1 h2
    simp [classifyFilterResult, h1, h2]
  · intro h1 h2
    have hne : r.row_count_filtered ≠ 0 := by omega
    simp [classifyFilterResult, h2, hne]
  · intro h
    simp [classifyFilterResult, h]

/-- Witness for C5 at the spec's P6 instances: found 0 / not-found 10 is
empty, found 5 / not-found 3 is partial, found 10 / not-found 0 shows no
modal. -/
theorem result_classification_witness :
    classifyFilterResult ⟨0, List.replicate 10 "x", [], [], []⟩ =
      some ResultModal.emptyResults ∧
    classifyFilterResult ⟨5, List.replicate 3 "x", [], [], []⟩ =
      some ResultModal.partialResults ∧
    classifyFilterResult ⟨10, [], [], [], []⟩ = none := by
  refine ⟨(result_classification _).1 rfl (by decide),
    (result_classification _).2.1 (by decide) (by decide),
    (result_classification _).2.2 (by decide)⟩

/-! ## Lazy table rendering (`renderDataTable` / `loadMoreChunk`) -/

/-- Constant `LAZY_LOAD_INITIAL_SIZE = 100`: rows rendered immediately. -/
def LAZY_LOAD_INITIAL_SIZE : Nat := 100

/-- Constant `LAZY_LOAD_CHUNK_SIZE = 50`: rows appended per lazy-load trigger. -/
def LAZY_LOAD_CHUNK_SIZE : Nat := 50

/-- Rendered table state: the rendered data rows (the sentinel trigger
row excluded) and whether the sentinel trigger is present and visible. -/
structure TableState (α : Type) where
  renderedRows : List α
  sentinelVisible : Bool
deriving DecidableEq

/-- Embeds `renderDataTable(data, columns)`: at most
`LAZY_LOAD_INITIAL_SIZE` rows render fully with no sentinel; beyond
that, the first 100 rows render and `setupLazyLoadTrigger` installs the
sentinel. -/
def renderDataTable {α : Type} (data : List α) : TableState α :=
  if LAZY_LOAD_INITIAL_SIZE < data.length then
    ⟨data.take LAZY_LOAD_INITIAL_SIZE, true⟩
  else
    ⟨data, false⟩

/-- Embeds `loadMoreChunk`: with everything already rendered the
sentinel is hidden and nothing is appended; otherwise
`slice(currentRowCount, min(currentRowCount + 50, total))` is appended
and the sentinel is hidden exactly when the end was reached. -/
def loadMoreChunk {α : Type} (totalData : List α) (st : TableState α) :
    TableState α :=
  let currentRowCount := st.renderedRows.length
  if totalData.length ≤ currentRowCount then
    ⟨st.renderedRows, false⟩
  else
    let endIndex := min (currentRowCount + LAZY_LOAD_CHUNK_SIZE) totalData.length
    let newRows := (totalData.drop currentRowCount).take (endIndex - currentRowCount)
    ⟨st.renderedRows ++ newRows,
      if totalData.length ≤ endIndex then false else true⟩

/-- C6: a result of at most 100 rows renders fully with no sentinel;
more than 100 rows render exactly the first 100 plus the sentinel; a
triggered chunk load appends exactly the next `min 50 remaining` rows;
and once the cumulative rendered count reaches the total, the sentinel
is hidden and further loads change nothing. -/
theorem lazy_render_threshold {α : Type} (data totalData : List α)
    (st : TableState α) :
    (data.length ≤ 100 → renderDataTable data = ⟨data, false⟩) ∧
    (100 < data.length →
      renderDataTable data = ⟨data.take 100, true⟩ ∧
      (renderDataTable data).renderedRows.length = 100) ∧
    (st.renderedRows.length < totalData.length →
      (loadMoreChunk totalData st).renderedRows =
        st.renderedRows ++ (totalData.drop st.renderedRows.length).take
          (min 50 (totalData.length - st.renderedRows.length)) ∧
      (loadMoreChunk totalData st).renderedRows.length =
        st.renderedRows.length +
          min 50 (totalData.length - st.renderedRows.length) ∧
      ((loadMoreChunk totalData st).renderedRows.length = totalData.length →
        (loadMoreChunk totalData st).sentinelVisible = false)) ∧
    (totalData.length ≤ st.renderedRows.length →
      loadMoreChunk totalData st = ⟨st.renderedRows, false⟩) := by
  refine ⟨?_, ?_, ?_, ?_⟩
  · intro h
    rw [renderDataTable, if_neg (by simp only [LAZY_LOAD_INITIAL_SIZE]; omega)]
  · intro h
    rw [renderDataTable, if_pos (by simp only [LAZY_LOAD_INITIAL_SIZE]; omega)]
    refine ⟨rfl, ?_⟩
    simp only [List.length_take, LAZY_LOAD_INITIAL_SIZE]
    omega
  · intro h
    have hcond : ¬ totalData.length ≤ st.renderedRows.length := by omega
    have hend : min (st.renderedRows.length + LAZY_LOAD_CHUNK_SIZE)
          totalData.length - st.renderedRows.length =
        min 50 (totalData.length - st.renderedRows.length) := by
      simp only [LAZY_LOAD_CHUNK_SIZE]
      omega
    have hrows : (loadMoreChunk totalData st).renderedRows =
        st.renderedRows ++ (totalData.drop st.renderedRows.length).take
          (min 50 (totalData.length - st.renderedRows.length)) := by
      rw [loadMoreChunk]
      simp only [hcond, if_false, hend]
    have hlen : (loadMoreChunk totalData st).renderedRows.length =
        st.renderedRows.length +
          min 50 (totalData.length - st.renderedRows.length) := by
      rw [hrows]
      simp only [List.length_append, List.length_take, List.length_drop]
      omega
    refine ⟨hrows, hlen, ?_⟩
    intro hfull
    rw [loadMoreChunk]
    simp only [hcond, if_false]
    rw [if_pos ?_]
    rw [hlen] at hfull
    simp only [LAZY_LOAD_CHUNK_SIZE]
    omega
  · intro h
    rw [loadMoreChunk, if_pos h]

/-- Witness for C6 on a concrete 101-row result: the initial render
shows the first 100 rows with the sentinel, the triggered chunk appends
the single remaining row, and a chunk load on a fully rendered table
changes nothing and hides the sentinel. -/
theorem lazy_render_threshold_witness :
    renderDataTable (List.range 101) = ⟨(List.range 101).take 100, true⟩ ∧
    (loadMoreChunk (List.range 101)
        ⟨(List.range 101).take 100, true⟩).renderedRows.length =
      ((List.range 101).take 100).length +
        min 50 ((List.range 101).length -
          ((List.range 101).take 100).length) ∧
    loadMoreChunk (List.range 101) ⟨List.range 101, false⟩ =
      ⟨List.range 101, false⟩ := by
  refine ⟨((lazy_render_threshold (List.range 101) (List.range 101)
      ⟨(List.range 101).take 100, true⟩).2.1 (by simp)).1,
    ((lazy_render_threshold (List.range 101) (List.range 101)
      ⟨(List.range 101).take 100, true⟩).2.2.1 (by simp)).2.1,
    (lazy_render_threshold (List.range 101) (List.range 101)
      ⟨List.range 101, false⟩).2.2.2 (by simp)⟩

/-! ## Retrying fetch (`fetchWithRetry`) -/

/-- A thrown JS error as observed by `fetchWithRetry`: its `name`
(`TypeError`, `AbortError`, `Error`, …) and `message`. -/
structure JsError where
  name : String
  message : String
deriving DecidableEq

/-- What one `fetch` attempt produces: either the promise rejects with
an error, or a response with an HTTP status arrives. -/
inductive AttemptOutcome where
  | thrown (e : JsError)
  | httpResponse (status : Nat) (statusText : String)
deriving DecidableEq

/-- Embeds `Response.ok`: status in the 200–299 range. -/
def responseOk (status : Nat) : Bool :=
  decide (200 ≤ status) && decide (status < 300)

/-- The error message built for a non-ok response:
`HTTP status: statusText`. -/
def httpErrorMessage (status : Nat) (statusText : String) : String :=
  "HTTP " ++ Nat.repr status ++ ": " ++ statusText

/-- The error (if any) one attempt of the retry loop ends with: a thrown
error as-is, or the `Error` constructed from a non-ok response. -/
def attemptError : AttemptOutcome → Option JsError
  | .thrown e => some e
  | .httpResponse status statusText =>
    if responseOk status then none
    else some ⟨"Error", httpErrorMessage status statusText⟩

/-- Whether `needle` is an initial segment of `hay`. -/
def beginsWith : List Char → List Char → Bool
  | [], _ => true
  | _ :: _, [] => false
  | p :: ps, c :: cs => p = c && beginsWith ps cs

/-- JS `String.prototype.includes`, on character lists. -/
def containsSub : List Char → List Char → Bool
  | [], needle => needle.isEmpty
  | c :: rest, needle => beginsWith needle (c :: rest) || containsSub rest needle

/-- JS `message.includes(sub)`. -/
def strIncludes (s sub : String) : Bool :=
  containsSub s.data sub.data

/-- Embeds the `isRetryableError` classification of `fetchWithRetry`:
network errors (`TypeError`), timeout aborts (`AbortError` whose message
mentions `timeout`), connection-level errors (`ERR_CONNECTION`), and
5xx HTTP statuses (message contains `HTTP 5`). -/
def isRetryableError (e : JsError) : Bool :=
  e.name = "TypeError" ||
  (e.name = "AbortError" && strIncludes e.message "timeout") ||
  strIncludes e.message "ERR_CONNECTION" ||
  strIncludes e.message "HTTP 5"

/-- Observable trace of one `fetchWithRetry` run: how many attempts were
made, the backoff delays awaited between them (in order), and the final
result (`ok` holds the index of the successful attempt). -/
structure RetryTrace where
  attemptsMade : Nat
  delays : List Nat
  result : Except JsError Nat

/-- The retry loop of `fetchWithRetry`, recursing on the number of
retries still allowed; `outcomes i` is what the `i`-th attempt's `fetch`
produces.  On an error with no retries left, or a non-retryable error,
the loop breaks and the last error is thrown. -/
def fetchRetryGo (outcomes : Nat → AttemptOutcome) (initialDelay : Nat) :
    Nat → Nat → RetryTrace
  | attempt, 0 =>
    match attemptError (outcomes attempt) with
    | none => ⟨1, [], .ok attempt⟩
    | some e => ⟨1, [], .error e⟩
  | attempt, remaining + 1 =>
    match attemptError (outcomes attempt) with
    | none => ⟨1, [], .ok attempt⟩
    | some e =>
      if isRetryableError e then
        let rest := fetchRetryGo outcomes initialDelay (attempt + 1) remaining
        ⟨rest.attemptsMade + 1, initialDelay * 2 ^ attempt :: rest.delays,
          rest.result⟩
      else ⟨1, [], .error e⟩

/-- Embeds `fetchWithRetry(url, options, maxRetries, initialDelay)`: the loop
runs attempts `0 … maxRetries`. -/
def fetchWithRetry (outcomes : Nat → AttemptOutcome)
    (maxRetries initialDelay : Nat) : RetryTrace :=
  fetchRetryGo outcomes initialDelay 0 maxRetries

/-- Full characterisation of the retry loop from any starting attempt:
at least one and at most `remaining + 1` attempts are made, the delays
awaited are exactly `initialDelay * 2 ^ i` for the attempts `i` that
were followed by another one, and a final error is the error of the last
attempt made. -/
theorem fetchRetryGo_spec (outcomes : Nat → AttemptOutcome) (d : Nat) :
    ∀ remaining attempt,
      1 ≤ (fetchRetryGo outcomes d attempt remaining).attemptsMade ∧
      (fetchRetryGo outcomes d attempt remaining).attemptsMade ≤
        remaining + 1 ∧
      (fetchRetryGo outcomes d attempt remaining).delays =
        (List.range ((fetchRetryGo outcomes d attempt remaining).attemptsMade
          - 1)).map (fun i => d * 2 ^ (attempt + i)) ∧
      (∀ e, (fetchRetryGo outcomes d attempt remaining).result = .error e →
        attemptError (outcomes (attempt +
          (fetchRetryGo outcomes d attempt remaining).attemptsMade - 1)) =
          some e) := by
  intro remaining
  induction remaining with
  | zero =>
    intro attempt
    cases houtcome : attemptError (outcomes attempt) with
    | none =>
      simp only [fetchRetryGo, houtcome]
      refine ⟨by omega, by omega, rfl, ?_⟩
      intro e he
      cases he
    | some e0 =>
      simp only [fetchRetryGo, houtcome]
      refine ⟨by omega, by omega, rfl, ?_⟩
      intro e he
      cases he
      simpa using houtcome
  | succ remaining ih =>
    intro attempt
    cases houtcome : attemptError (outcomes attempt) with
    | none =>
      simp only [fetchRetryGo, houtcome]
      refine ⟨by omega, by omega, rfl, ?_⟩
      intro e he
      cases he
    | some e0 =>
      by_cases hretry : isRetryableError e0
      · have hrec := ih (attempt + 1)
        simp only [fetchRetryGo, houtcome, hretry, if_true]
        obtain ⟨h1, h2, h3, h4⟩ := hrec
        refine ⟨by omega, by omega, ?_, ?_⟩
        · have hk : (fetchRetryGo outcomes d (attempt + 1)
              remaining).attemptsMade =
            ((fetchRetryGo outcomes d (attempt + 1) remaining).attemptsMade
              - 1) + 1 := by omega
          simp only [Nat.add_sub_cancel]
          rw [hk, List.range_succ_eq_map, List.map_cons, List.map_map]
          refine congrArg₂ _ (by simp) ?_
          rw [h3]
          apply List.map_congr_left
          intro i hi
          simp only [Function.comp_apply]
          congr 1
          congr 1
          omega
        · intro e he
          have := h4 e he
          have hidx : attempt + ((fetchRetryGo outcomes d (attempt + 1)
              remaining).attemptsMade + 1) - 1 =
            attempt + 1 + (fetchRetryGo outcomes d (attempt + 1)
              remaining).attemptsMade - 1 := by omega
          rw [hidx]
          exact this
      · simp only [fetchRetryGo, houtcome, hretry, Bool.false_eq_true,
          if_false]
        refine ⟨by omega, by omega, rfl, ?_⟩
        intro e he
        cases he
        simpa using houtcome

/-- C7: `fetchWithRetry` makes at most `maxRetries + 1` attempts in
total, between attempt `i` and the next one waits exactly
`initialDelay * 2 ^ i` milliseconds, and a failing run propagates the
error of the last attempt made. -/
theorem fetch_retry_attempts_backoff (outcomes : Nat → AttemptOutcome)
    (maxRetries initialDelay : Nat) :
    (fetchWithRetry outcomes maxRetries initialDelay).attemptsMade ≤
      maxRetries + 1 ∧
    (fetchWithRetry outcomes maxRetries initialDelay).delays =
      (List.range
        ((fetchWithRetry outcomes maxRetries initialDelay).attemptsMade -
          1)).map (fun i => initialDelay * 2 ^ i) ∧
    (∀ e,
      (fetchWithRetry outcomes maxRetries initialDelay).result = .error e →
      attemptError (outcomes
        ((fetchWithRetry outcomes maxRetries initialDelay).attemptsMade -
          1)) = some e) := by
  obtain ⟨h1, h2, h3, h4⟩ :=
    fetchRetryGo_spec outcomes initialDelay maxRetries 0
  refine ⟨h2, ?_, ?_⟩
  · simpa using h3
  · intro e he
    simpa using h4 e he

/-- An oracle that makes every attempt fail with a network error. -/
def alwaysNetworkError : Nat → AttemptOutcome :=
  fun _ => .thrown ⟨"TypeError", "Failed to fetch"⟩

/-- Witness for C7: with every attempt failing on a network error and
`maxRetries = 2`, the run stays within 3 attempts, backs off with
`1000 * 2 ^ i`, and propagates the last network error. -/
theorem fetch_retry_attempts_backoff_witness :
    (fetchWithRetry alwaysNetworkError 2 1000).attemptsMade ≤ 2 + 1 ∧
    (fetchWithRetry alwaysNetworkError 2 1000).delays =
      (List.range
        ((fetchWithRetry alwaysNetworkError 2 1000).attemptsMade - 1)).map
        (fun i => 1000 * 2 ^ i) ∧
    attemptError (alwaysNetworkError
        ((fetchWithRetry alwaysNetworkError 2 1000).attemptsMade - 1)) =
      some ⟨"TypeError", "Failed to fetch"⟩ := by
  obtain ⟨h1, h2, h3⟩ := fetch_retry_attempts_backoff alwaysNetworkError 2 1000
  exact ⟨h1, h2, h3 ⟨"TypeError", "Failed to fetch"⟩ (by rfl)⟩

/-- If the needle starts the haystack, the haystack contains it. -/
theorem beginsWith_containsSub {needle hay : List Char}
    (h : beginsWith needle hay = true) : containsSub hay needle = true := by
  cases hay with
  | nil =>
    cases needle with
    | nil => rfl
    | cons p ps => simp [beginsWith] at h
  | cons c rest => simp [containsSub, h]

set_option maxRecDepth 8000 in
/-- Decimal renderings of the statuses 500–599 start with the digit 5. -/
theorem repr_head_five : ∀ s : Nat, s < 600 → 500 ≤ s →
    (Nat.repr s).data.take 1 = ['5'] := by decide

/-- Every 5xx error message `HTTP 5xx: …` contains `HTTP 5`, whatever
the status text. -/
theorem http5_message_includes (s : Nat) (txt : String)
    (h1 : 500 ≤ s) (h2 : s < 600) :
    strIncludes (httpErrorMessage s txt) "HTTP 5" = true := by
  obtain ⟨t, ht⟩ : ∃ t, (Nat.repr s).data = '5' :: t := by
    have h := repr_head_five s h2 h1
    cases hd : (Nat.repr s).data with
    | nil => rw [hd] at h; simp at h
    | cons c cs =>
      rw [hd] at h
      simp at h
      exact ⟨cs, by rw [h]⟩
  have hdata : (httpErrorMessage s txt).data =
      'H' :: 'T' :: 'T' :: 'P' :: ' ' :: '5' ::
        (t ++ ([':', ' '] ++ txt.data)) := by
    have hH : "HTTP ".data = ['H', 'T', 'T', 'P', ' '] := rfl
    have hC : (": ").data = [':', ' '] := rfl
    unfold httpErrorMessage
    rw [String.data_append, String.data_append, String.data_append,
      hH, hC, ht]
    simp
  have hbw : beginsWith ("HTTP 5".data) ((httpErrorMessage s txt).data) =
      true := by
    rw [hdata]
    rfl
  have := beginsWith_containsSub hbw
  simpa [strIncludes] using this

/-- C8: a failed attempt is retried only when the error classifies as
transient — a network-level `TypeError`, a timeout abort, a connection
error, or an HTTP 5xx status — and every non-matching error (an HTTP 4xx
response, a user-initiated abort) makes the whole call fail immediately
after that single attempt, propagating the error with no retry. -/
theorem fetch_retry_transient_classification :
    (∀ (outcomes : Nat → AttemptOutcome) (m d : Nat) (e : JsError),
      attemptError (outcomes 0) = some e → isRetryableError e = false →
      fetchWithRetry outcomes m d = ⟨1, [], .error e⟩) ∧
    (∀ (outcomes : Nat → AttemptOutcome) (m d : Nat) (e : JsError),
      0 < m → attemptError (outcomes 0) = some e →
      isRetryableError e = true →
      2 ≤ (fetchWithRetry outcomes m d).attemptsMade) ∧
    (∀ msg, isRetryableError ⟨"TypeError", msg⟩ = true) ∧
    (∀ msg, strIncludes msg "timeout" = true →
      isRetryableError ⟨"AbortError", msg⟩ = true) ∧
    (∀ (s : Nat) (txt : String), 500 ≤ s → s < 600 →
      isRetryableError ⟨"Error", httpErrorMessage s txt⟩ = true) ∧
    isRetryableError ⟨"Error", httpErrorMessage 404 "Not Found"⟩ = false ∧
    isRetryableError ⟨"AbortError", "signal is aborted without reason"⟩ =
      false := by
  refine ⟨?_, ?_, ?_, ?_, ?_, by decide, by decide⟩
  · intro outcomes m d e he hre
    cases m with
    | zero => simp [fetchWithRetry, fetchRetryGo, he]
    | succ m =>
      simp [fetchWithRetry, fetchRetryGo, he, hre, Bool.false_eq_true]
  · intro outcomes m d e hm he hre
    cases m with
    | zero => omega
    | succ m =>
      have hrest := (fetchRetryGo_spec outcomes d m 1).1
      simp only [fetchWithRetry, fetchRetryGo, he, hre, if_true]
      show 2 ≤ (fetchRetryGo outcomes d 1 m).attemptsMade + 1
      omega
  · intro msg
    rfl
  · intro msg h
    simp [isRetryableError, h]
  · intro s txt h1 h2
    have h := http5_message_includes s txt h1 h2
    simp [isRetryableError, h]

/-- Witness for C8: a 404 fails in one attempt with no retry; a 503, a
timeout abort and a network error classify as retryable, and with a 503
on the first attempt and retries available, a second attempt happens. -/
theorem fetch_retry_transient_classification_witness :
    fetchWithRetry (fun _ => .httpResponse 404 "Not Found") 3 1000 =
      ⟨1, [], .error ⟨"Error", httpErrorMessage 404 "Not Found"⟩⟩ ∧
    2 ≤ (fetchWithRetry
        (fun _ => .httpResponse 503 "Service Unavailable") 3 1000).attemptsMade ∧
    isRetryableError ⟨"AbortError", "Request timeout after 30s"⟩ = true ∧
    isRetryableError ⟨"Error", httpErrorMessage 503 "Service Unavailable"⟩ =
      true := by
  refine ⟨fetch_retry_transient_classification.1 _ 3 1000
      ⟨"Error", httpErrorMessage 404 "Not Found"⟩ rfl (by decide),
    fetch_retry_transient_classification.2.1 _ 3 1000
      ⟨"Error", httpErrorMessage 503 "Service Unavailable"⟩ (by omega) rfl
      (by decide),
    fetch_retry_transient_classification.2.2.2.1 _ (by decide),
    fetch_retry_transient_classification.2.2.2.2.1 503 "Service Unavailable"
      (by omega) (by omega)⟩

/-! ## The data-source cache (`dataSourceCache` / `handleDataLoad`) -/

/-- The `fileInfo` block of a cache entry. -/
structure FileInfo where
  displayName : String
  fileName : String
  columns : List String
  rowCount : Nat
  cacheTtlSeconds : Nat
deriving DecidableEq

/-- One `dataSourceCache` entry as created by `handleDataLoad` (the
JSON-shaped `filterOptions` / `valueFilters` / `priorityInfo` blobs
carry no structure relevant to the claims and are omitted). -/
structure CacheEntry where
  fileInfo : FileInfo
  filterConfig : List String
  ttl : Nat
  displayData : List (List String)
  filteredRowCount : Nat
  selectedColumns : List String
  currentPage : Nat
  hasPriorityColumn : Bool
deriving DecidableEq

/-- The `/api/data/load` response fields used to build a cache entry;
`columns := none` models a payload whose `columns` field is missing or
not an array, `none` in the other fields models absent values defaulted
by `parseInt(x || d, 10)`. -/
structure DataPayload where
  columns : Option (List String)
  row_count_original : Option Nat
  cache_ttl_seconds : Option Nat
deriving DecidableEq

/-- The fresh entry `handleDataLoad` assigns on a successful load. -/
def mkCacheEntry (displayName fileName : String)
    (filterColumns : List String) (p : DataPayload) (cols : List String) :
    CacheEntry :=
  { fileInfo :=
      { displayName := displayName
        fileName := fileName
        columns := cols.map String.toLower
        rowCount := p.row_count_original.getD 0
        cacheTtlSeconds := p.cache_ttl_seconds.getD 300 }
    filterConfig := filterColumns.map String.toLower
    ttl := p.cache_ttl_seconds.getD 300
    displayData := []
    filteredRowCount := 0
    selectedColumns := []
    currentPage := 1
    hasPriorityColumn := false }

/-- Model of `dataSourceCache`: a JS object keyed by source display name. -/
abbrev Cache := List (String × CacheEntry)

/-- JS property assignment `obj[k] = v`: replace in place, else append. -/
def objSet : Cache → String → CacheEntry → Cache
  | [], k, v => [(k, v)]
  | (k0, v0) :: rest, k, v =>
    if k0 = k then (k, v) :: rest else (k0, v0) :: objSet rest k v

/-- JS `delete obj[k]`. -/
def objDelete (c : Cache) (k : String) : Cache :=
  c.filter (fun kv => decide (kv.1 ≠ k))

/-- How many entries a cache holds under one key. -/
def countKey (c : Cache) (k : String) : Nat :=
  (c.filter (fun kv => decide (kv.1 = k))).length

/-- Embeds `obj[k]`: the first (for a JS object: only) entry under a key. -/
def lookupKey (c : Cache) (k : String) : Option CacheEntry :=
  (c.find? (fun kv => decide (kv.1 = k))).map (·.2)

/-- The JS-object representation invariant: each key appears once. -/
def nodupKeys (c : Cache) : Prop :=
  (c.map (·.1)).Nodup

/-- How one `handleDataLoad` run ends: the fetch chain throws a
non-abort network/HTTP error, the user aborts, or a payload arrives. -/
inductive LoadOutcome where
  | fetchError (e : JsError)
  | aborted
  | payload (p : DataPayload)

/-- Embeds the cache effect of one `handleDataLoad` run for the selected
source: a payload with a valid `columns` array (re)assigns
`dataSourceCache[name]` wholesale; a payload without one throws before
the entry is created, and the catch block of every non-abort error
deletes the entry for that name; a user abort leaves the cache alone. -/
def handleDataLoadCache (cache : Cache) (displayName fileName : String)
    (filterColumns : List String) (res : LoadOutcome) : Cache :=
  match res with
  | .aborted => cache
  | .fetchError _ => objDelete cache displayName
  | .payload p =>
    match p.columns with
    | none => objDelete cache displayName
    | some cols =>
      objSet cache displayName
        (mkCacheEntry displayName fileName filterColumns p cols)

theorem countKey_eq_zero_of_not_mem (c : Cache) (k : String)
    (h : k ∉ c.map (·.1)) : countKey c k = 0 := by
  induction c with
  | nil => rfl
  | cons kv rest ih =>
    simp only [List.map_cons, List.mem_cons] at h
    push_neg at h
    simp only [countKey, List.filter_cons]
    rw [if_neg (by simp [h.1.symm])]
    exact ih h.2

theorem mem_keys_objSet (c : Cache) (k : String) (v : CacheEntry)
    (a : String) (ha : a ∈ (objSet c k v).map (·.1)) :
    a = k ∨ a ∈ c.map (·.1) := by
  induction c with
  | nil => simpa [objSet] using ha
  | cons kv rest ih =>
    by_cases hk : kv.1 = k
    · rw [show objSet (kv :: rest) k v = (k, v) :: rest by
        rw [objSet.eq_def]
        simp [hk]] at ha
      simp only [List.map_cons, List.mem_cons] at ha ⊢
      tauto
    · rw [show objSet (kv :: rest) k v = kv :: objSet rest k v by
        rw [objSet.eq_def]
        simp [hk]] at ha
      simp only [List.map_cons, List.mem_cons] at ha ⊢
      rcases ha with h | h
      · tauto
      · rcases ih h with h | h <;> tauto

theorem nodupKeys_objSet (c : Cache) (k : String) (v : CacheEntry)
    (h : nodupKeys c) : nodupKeys (objSet c k v) := by
  induction c with
  | nil => simp [nodupKeys, objSet]
  | cons kv rest ih =>
    simp only [nodupKeys, List.map_cons, List.nodup_cons] at h
    by_cases hk : kv.1 = k
    · rw [show objSet (kv :: rest) k v = (k, v) :: rest by
        rw [objSet.eq_def]
        simp [hk]]
      simp only [nodupKeys, List.map_cons, List.nodup_cons]
      exact ⟨by rw [← hk]; exact h.1, h.2⟩
    · rw [show objSet (kv :: rest) k v = kv :: objSet rest k v by
        rw [objSet.eq_def]
        simp [hk]]
      simp only [nodupKeys, List.map_cons, List.nodup_cons]
      refine ⟨?_, ih h.2⟩
      intro hmem
      rcases mem_keys_objSet rest k v kv.1 hmem with he | he
      · exact hk he
      · exact h.1 he

theorem nodupKeys_objDelete (c : Cache) (k : String)
    (h : nodupKeys c) : nodupKeys (objDelete c k) := by
  have hsub : (objDelete c k).Sublist c := List.filter_sublist c
  exact List.Nodup.sublist (hsub.map (fun x => x.1)) h

theorem lookupKey_objSet_self (c : Cache) (k : String) (v : CacheEntry) :
    lookupKey (objSet c k v) k = some v := by
  induction c with
  | nil => simp [objSet, lookupKey, List.find?]
  | cons kv rest ih =>
    by_cases hk : kv.1 = k
    · rw [show objSet (kv :: rest) k v = (k, v) :: rest by
        rw [objSet.eq_def]
        simp [hk]]
      simp [lookupKey, List.find?]
    · rw [show objSet (kv :: rest) k v = kv :: objSet rest k v by
        rw [objSet.eq_def]
        simp [hk]]
      simpa [lookupKey, List.find?_cons, hk] using ih

theorem countKey_objSet_self (c : Cache) (k : String) (v : CacheEntry)
    (h : nodupKeys c) : countKey (objSet c k v) k = 1 := by
  induction c with
  | nil => simp [objSet, countKey]
  | cons kv rest ih =>
    simp only [nodupKeys, List.map_cons, List.nodup_cons] at h
    by_cases hk : kv.1 = k
    · rw [show objSet (kv :: rest) k v = (k, v) :: rest by
        rw [objSet.eq_def]
        simp [hk]]
      simp only [countKey, List.filter_cons, decide_eq_true_eq]
      rw [if_pos trivial]
      have hz := countKey_eq_zero_of_not_mem rest k (by rw [← hk]; exact h.1)
      simp only [countKey] at hz
      simp [hz]
    · rw [show objSet (kv :: rest) k v = kv :: objSet rest k v by
        rw [objSet.eq_def]
        simp [hk]]
      simp only [countKey, List.filter_cons]
      rw [if_neg (by simp [hk])]
      exact ih h.2

theorem lookupKey_objDelete_self (c : Cache) (k : String) :
    lookupKey (objDelete c k) k = none := by
  induction c with
  | nil => rfl
  | cons kv rest ih =>
    simp only [objDelete, List.filter_cons]
    by_cases hk : kv.1 = k
    · rw [if_neg (by simp [hk])]
      exact ih
    · rw [if_pos (by simp [hk])]
      simp [lookupKey, List.find?_cons, hk, ih]

/-- C2: at most one cache entry exists per source name: the key
invariant is preserved by every load; a successful load atomically
replaces any prior entry, so two sequential loads of the same source
leave exactly one entry holding only the second payload's data; and a
failed load — a network error, or a payload whose `columns` field is
missing — deletes the entry for that name entirely rather than leaving
a partial entry. -/
theorem cache_single_entry (cache : Cache) (name fname : String)
    (fcols : List String) (h : nodupKeys cache) :
    (∀ res, nodupKeys (handleDataLoadCache cache name fname fcols res)) ∧
    (∀ p1 p2 cols1 cols2, p1.columns = some cols1 →
      p2.columns = some cols2 →
      countKey (handleDataLoadCache
        (handleDataLoadCache cache name fname fcols (.payload p1))
        name fname fcols (.payload p2)) name = 1 ∧
      lookupKey (handleDataLoadCache
        (handleDataLoadCache cache name fname fcols (.payload p1))
        name fname fcols (.payload p2)) name =
        some (mkCacheEntry name fname fcols p2 cols2)) ∧
    (∀ e, lookupKey (handleDataLoadCache cache name fname fcols
        (.fetchError e)) name = none) ∧
    (∀ p, p.columns = none →
      lookupKey (handleDataLoadCache cache name fname fcols
        (.payload p)) name = none) := by
  refine ⟨?_, ?_, ?_, ?_⟩
  · intro res
    cases res with
    | aborted => exact h
    | fetchError e => exact nodupKeys_objDelete cache name h
    | payload p =>
      cases hp : p.columns with
      | none =>
        simp only [handleDataLoadCache, hp]
        exact nodupKeys_objDelete cache name h
      | some cols =>
        simp only [handleDataLoadCache, hp]
        exact nodupKeys_objSet cache name _ h
  · intro p1 p2 cols1 cols2 h1 h2
    simp only [handleDataLoadCache, h1, h2]
    constructor
    · exact countKey_objSet_self _ name _ (nodupKeys_objSet cache name _ h)
    · exact lookupKey_objSet_self _ name _
  · intro e
    exact lookupKey_objDelete_self cache name
  · intro p hp
    simp only [handleDataLoadCache, hp]
    exact lookupKey_objDelete_self cache name

/-- Witness for C2 on an initially empty cache: two sequential loads of
`UNIVERSO PERU` leave exactly one entry holding the second payload's
data, and a network error wipes the entry. -/
theorem cache_single_entry_witness :
    countKey (handleDataLoadCache
      (handleDataLoadCache [] "UNIVERSO PERU" "universo.csv" ["pais"]
        (.payload ⟨some ["SKU"], some 10, some 300⟩))
      "UNIVERSO PERU" "universo.csv" ["pais"]
      (.payload ⟨some ["SKU", "Desc"], some 20, none⟩)) "UNIVERSO PERU" =
      1 ∧
    lookupKey (handleDataLoadCache
      (handleDataLoadCache [] "UNIVERSO PERU" "universo.csv" ["pais"]
        (.payload ⟨some ["SKU"], some 10, some 300⟩))
      "UNIVERSO PERU" "universo.csv" ["pais"]
      (.payload ⟨some ["SKU", "Desc"], some 20, none⟩)) "UNIVERSO PERU" =
      some (mkCacheEntry "UNIVERSO PERU" "universo.csv" ["pais"]
        ⟨some ["SKU", "Desc"], some 20, none⟩ ["SKU", "Desc"]) ∧
    lookupKey (handleDataLoadCache [] "UNIVERSO PERU" "universo.csv"
      ["pais"] (.fetchError ⟨"TypeError", "Failed to fetch"⟩))
      "UNIVERSO PERU" = none := by
  obtain ⟨hinv, htwice, herr, hmiss⟩ :=
    cache_single_entry [] "UNIVERSO PERU" "universo.csv" ["pais"]
      (by simp [nodupKeys])
  obtain ⟨hcount, hlook⟩ := htwice ⟨some ["SKU"], some 10, some 300⟩
    ⟨some ["SKU", "Desc"], some 20, none⟩ ["SKU"] ["SKU", "Desc"] rfl rfl
  exact ⟨hcount, hlook, herr ⟨"TypeError", "Failed to fetch"⟩⟩

/-! ## Debounce machinery and the text-filter input listeners -/

/-- Constant `DEBOUNCE_DELAY = 300` ms for text filters. -/
def DEBOUNCE_DELAY : Nat := 300

/-- The UI state the debounce machinery touches: the single shared
`filterDebounceTimer` (holding the delay it was armed with), the
`pendingFilterUpdates` set, and a count of `handleApplyFilters` calls. -/
structure UIState where
  filterDebounceTimer : Option Nat
  pendingFilterUpdates : List String
  applyFilterCalls : Nat
deriving DecidableEq

/-- The page state before any interaction. -/
def initialUIState : UIState := ⟨none, [], 0⟩

/-- Embeds `Set.prototype.add` on the insertion-ordered pending set. -/
def setAdd (s : List String) (x : String) : List String :=
  if s.contains x then s else s ++ [x]

/-- Embeds `showFilterInputPending`: a visual marker only — the field is
added to the pending set; no timer is armed and no apply runs. -/
def showFilterInputPending (st : UIState) (filterType : String) : UIState :=
  { st with pendingFilterUpdates := setAdd st.pendingFilterUpdates filterType }

/-- Embeds `debounceFilterUpdate(filterType, delay)`: cancel any pending
timer, add the filter to the pending set, and arm a fresh timer whose
callback runs `handleApplyFilters`. -/
def debounceFilterUpdate (st : UIState) (filterType : String)
    (delay : Nat := DEBOUNCE_DELAY) : UIState :=
  { st with
      filterDebounceTimer := some delay
      pendingFilterUpdates := setAdd st.pendingFilterUpdates filterType }

/-- The armed debounce timer fires: clear the pending set and run
`handleApplyFilters(1, false)`; with no timer armed nothing happens. -/
def fireDebounceTimer (st : UIState) : UIState :=
  match st.filterDebounceTimer with
  | none => st
  | some _ =>
    { filterDebounceTimer := none
      pendingFilterUpdates := []
      applyFilterCalls := st.applyFilterCalls + 1 }

/-- A direct `handleApplyFilters` invocation. -/
def applyFiltersNow (st : UIState) : UIState :=
  { st with applyFilterCalls := st.applyFilterCalls + 1 }

/-- The UI events relevant to the debounce claim. -/
inductive UIEvent where
  | textInput (filterType : String)
  | enterKey
  | applyClick
  | timerElapse

/-- Embeds the text-filter event listeners as wired in the source: an
`input` event calls only the visual `showFilterInputPending`; the Enter
key and the Apply button call `handleApplyFilters(1, …)` directly; an
elapsing debounce window runs whatever timer is armed. -/
def handleUIEvent (st : UIState) : UIEvent → UIState
  | .textInput f => showFilterInputPending st f
  | .enterKey => applyFiltersNow st
  | .applyClick => applyFiltersNow st
  | .timerElapse => fireDebounceTimer st

/-- Process a sequence of UI events. -/
def runUIEvents (st : UIState) (evs : List UIEvent) : UIState :=
  evs.foldl handleUIEvent st

theorem runUIEvents_textInputs (edits : List String) :
    ∀ st : UIState,
      (runUIEvents st (edits.map UIEvent.textInput)).applyFilterCalls =
        st.applyFilterCalls ∧
      (runUIEvents st (edits.map UIEvent.textInput)).filterDebounceTimer =
        st.filterDebounceTimer := by
  induction edits with
  | nil => exact fun st => ⟨rfl, rfl⟩
  | cons e rest ih =>
    intro st
    simp only [List.map_cons, runUIEvents, List.foldl_cons]
    exact ih (handleUIEvent st (.textInput e))

theorem debounceFold_preserves (fs : List String) :
    ∀ st : UIState, st.filterDebounceTimer = some DEBOUNCE_DELAY →
      (fs.foldl (fun s g => debounceFilterUpdate s g) st).applyFilterCalls =
        st.applyFilterCalls ∧
      (fs.foldl (fun s g => debounceFilterUpdate s g)
        st).filterDebounceTimer = some DEBOUNCE_DELAY := by
  induction fs with
  | nil => exact fun st hst => ⟨rfl, hst⟩
  | cons g rest ih =>
    intro st hst
    simp only [List.foldl_cons]
    exact ih (debounceFilterUpdate st g) rfl

/-- C1 fails as stated: three rapid edits of the SKU hijo field followed
by the 300 ms debounce window elapsing produce zero filter-apply calls,
not exactly one, and a single edit leaves no debounce timer scheduled —
the wired input listeners only set the visual pending marker. -/
theorem debounce_claim_counterexample :
    (runUIEvents initialUIState
      [.textInput "sku-hijo", .textInput "sku-hijo", .textInput "sku-hijo",
        .timerElapse]).applyFilterCalls = 0 ∧
    ¬ (runUIEvents initialUIState
      [.textInput "sku-hijo", .textInput "sku-hijo", .textInput "sku-hijo",
        .timerElapse]).applyFilterCalls = 1 ∧
    (runUIEvents initialUIState
      [.textInput "sku-hijo"]).filterDebounceTimer = none := by
  exact ⟨rfl, by decide, rfl⟩

/-- C1 (amended): edits of the text-filter fields do not schedule any
deferred filter-apply — they only mark the field visually pending,
leaving the debounce timer and the apply-call count untouched — while
Enter and the explicit Apply action each apply immediately; the
`debounceFilterUpdate` helper (present in the source but not wired to
these inputs) does implement the single-shared-timer semantics: any run
of consecutive calls leaves one armed 300 ms timer whose firing produces
exactly one filter-apply call. -/
theorem debounce_amended (st : UIState) (edits : List String)
    (f : String) (fs : List String) :
    (runUIEvents st (edits.map UIEvent.textInput)).applyFilterCalls =
      st.applyFilterCalls ∧
    (runUIEvents st (edits.map UIEvent.textInput)).filterDebounceTimer =
      st.filterDebounceTimer ∧
    (handleUIEvent st .enterKey).applyFilterCalls =
      st.applyFilterCalls + 1 ∧
    (handleUIEvent st .applyClick).applyFilterCalls =
      st.applyFilterCalls + 1 ∧
    (fs.foldl (fun s g => debounceFilterUpdate s g)
      (debounceFilterUpdate st f)).filterDebounceTimer =
      some DEBOUNCE_DELAY ∧
    (fireDebounceTimer (fs.foldl (fun s g => debounceFilterUpdate s g)
      (debounceFilterUpdate st f))).applyFilterCalls =
      st.applyFilterCalls + 1 := by
  obtain ⟨hc, ht⟩ := runUIEvents_textInputs edits st
  obtain ⟨hfc, hft⟩ := debounceFold_preserves fs (debounceFilterUpdate st f) rfl
  refine ⟨hc, ht, rfl, rfl, hft, ?_⟩
  simp only [fireDebounceTimer, hft]
  exact congrArg (· + 1) hfc

/-! ## Batch not-found accumulation (`allBatchNotFoundSkus`) -/

/-- The global accumulator `allBatchNotFoundSkus`. -/
structure NotFoundAccum where
  hijo : List String
  padre : List String
deriving DecidableEq

/-- The duplicate-avoiding push of `exportBatch`:
`if (!acc.includes(sku)) acc.push(sku)`. -/
def pushIfAbsent (acc : List String) (sku : String) : List String :=
  if acc.contains sku then acc else acc ++ [sku]

/-- Embeds the not-found capture of one `exportBatch` call: every SKU
the batch's filter response reports as not found is appended to the
matching accumulator unless already present. -/
def exportBatchAccum (acc : NotFoundAccum)
    (noEncontradosHijo noEncontradosPadre : List String) : NotFoundAccum :=
  ⟨noEncontradosHijo.foldl pushIfAbsent acc.hijo,
    noEncontradosPadre.foldl pushIfAbsent acc.padre⟩

set_option linter.unusedVariables false in
/-- Embeds the accumulator effect of one `handleBatchProcessing` run:
whatever the accumulator held before, it is reset to empty lists at the
start (`allBatchNotFoundSkus = { hijo: [], padre: [] }`), then every
batch's filter response is folded in sequentially. -/
def handleBatchProcessingAccum (prior : NotFoundAccum)
    (batchResults : List (List String × List String)) : NotFoundAccum :=
  let reset : NotFoundAccum := ⟨[], []⟩
  batchResults.foldl (fun acc r => exportBatchAccum acc r.1 r.2) reset

/-- The SKU lines of the `generateNotFoundTxt` report: each accumulated
hijo SKU once, then each accumulated padre SKU once. -/
def notFoundReportSkus (acc : NotFoundAccum) : List String :=
  acc.hijo ++ acc.padre

theorem pushIfAbsent_nodup (acc : List String) (sku : String)
    (h : acc.Nodup) : (pushIfAbsent acc sku).Nodup := by
  unfold pushIfAbsent
  by_cases hc : acc.contains sku
  · rw [if_pos hc]
    exact h
  · rw [if_neg hc]
    have hmem : sku ∉ acc := by
      intro hm
      exact hc (List.elem_eq_true_of_mem hm)
    simp [List.nodup_append, h, List.disjoint_singleton, hmem]

theorem mem_pushIfAbsent_self (acc : List String) (sku : String) :
    sku ∈ pushIfAbsent acc sku := by
  unfold pushIfAbsent
  by_cases hc : acc.contains sku
  · rw [if_pos hc]
    exact List.mem_of_elem_eq_true hc
  · rw [if_neg hc]
    simp

theorem mem_pushIfAbsent_of_mem (acc : List String) (sku x : String)
    (h : x ∈ acc) : x ∈ pushIfAbsent acc sku := by
  unfold pushIfAbsent
  by_cases hc : acc.contains sku
  · rw [if_pos hc]
    exact h
  · rw [if_neg hc]
    exact List.mem_append_left _ h

theorem foldl_pushIfAbsent_nodup (l : List String) :
    ∀ acc : List String, acc.Nodup → (l.foldl pushIfAbsent acc).Nodup := by
  induction l with
  | nil => exact fun acc h => h
  | cons x rest ih =>
    intro acc h
    exact ih (pushIfAbsent acc x) (pushIfAbsent_nodup acc x h)

theorem mem_foldl_pushIfAbsent_of_mem_acc (l : List String) :
    ∀ (acc : List String) (x : String), x ∈ acc →
      x ∈ l.foldl pushIfAbsent acc := by
  induction l with
  | nil => exact fun acc x h => h
  | cons y rest ih =>
    intro acc x h
    exact ih (pushIfAbsent acc y) x (mem_pushIfAbsent_of_mem acc y x h)

theorem mem_foldl_pushIfAbsent_of_mem (l : List String) :
    ∀ (acc : List String) (x : String), x ∈ l →
      x ∈ l.foldl pushIfAbsent acc := by
  induction l with
  | nil =>
    intro acc x h
    simp at h
  | cons y rest ih =>
    intro acc x h
    rcases List.mem_cons.mp h with h | h
    · subst h
      exact mem_foldl_pushIfAbsent_of_mem_acc rest _ x
        (mem_pushIfAbsent_self acc x)
    · exact ih (pushIfAbsent acc y) x h

theorem foldl_batches_nodup (results : List (List String × List String)) :
    ∀ acc : NotFoundAccum, acc.hijo.Nodup → acc.padre.Nodup →
      (results.foldl (fun a r => exportBatchAccum a r.1 r.2)
        acc).hijo.Nodup ∧
      (results.foldl (fun a r => exportBatchAccum a r.1 r.2)
        acc).padre.Nodup := by
  induction results with
  | nil => exact fun acc h1 h2 => ⟨h1, h2⟩
  | cons r rest ih =>
    intro acc h1 h2
    exact ih (exportBatchAccum acc r.1 r.2)
      (foldl_pushIfAbsent_nodup r.1 acc.hijo h1)
      (foldl_pushIfAbsent_nodup r.2 acc.padre h2)

theorem foldl_batches_mem_hijo (results : List (List String × List String)) :
    ∀ (acc : NotFoundAccum) (sku : String),
      (sku ∈ acc.hijo ∨ ∃ r ∈ results, sku ∈ r.1) →
      sku ∈ (results.foldl (fun a r => exportBatchAccum a r.1 r.2)
        acc).hijo := by
  induction results with
  | nil =>
    intro acc sku h
    rcases h with h | ⟨r, hr, _⟩
    · exact h
    · simp at hr
  | cons r rest ih =>
    intro acc sku h
    rcases h with h | ⟨r0, hr0, hin⟩
    · exact ih _ sku (Or.inl (mem_foldl_pushIfAbsent_of_mem_acc r.1 _ sku h))
    · rcases List.mem_cons.mp hr0 with he | he
      · subst he
        exact ih _ sku (Or.inl (mem_foldl_pushIfAbsent_of_mem r0.1 _ sku hin))
      · exact ih _ sku (Or.inr ⟨r0, he, hin⟩)

theorem foldl_batches_mem_padre (results : List (List String × List String)) :
    ∀ (acc : NotFoundAccum) (sku : String),
      (sku ∈ acc.padre ∨ ∃ r ∈ results, sku ∈ r.2) →
      sku ∈ (results.foldl (fun a r => exportBatchAccum a r.1 r.2)
        acc).padre := by
  induction results with
  | nil =>
    intro acc sku h
    rcases h with h | ⟨r, hr, _⟩
    · exact h
    · simp at hr
  | cons r rest ih =>
    intro acc sku h
    rcases h with h | ⟨r0, hr0, hin⟩
    · exact ih _ sku (Or.inl (mem_foldl_pushIfAbsent_of_mem_acc r.2 _ sku h))
    · rcases List.mem_cons.mp hr0 with he | he
      · subst he
        exact ih _ sku (Or.inl (mem_foldl_pushIfAbsent_of_mem r0.2 _ sku hin))
      · exact ih _ sku (Or.inr ⟨r0, he, hin⟩)

/-- C10: during batch processing the accumulated not-found SKU
collections never contain duplicates — a SKU reported as not found by
several batches is appended only if not already present, so it appears
exactly once among its section's lines of the downloadable report — and
the accumulators are reset to empty at the start of every run, whatever
they held before. -/
theorem batch_notfound_accumulators (prior : NotFoundAccum)
    (batchResults : List (List String × List String)) :
    handleBatchProcessingAccum prior batchResults =
      handleBatchProcessingAccum ⟨[], []⟩ batchResults ∧
    (handleBatchProcessingAccum prior batchResults).hijo.Nodup ∧
    (handleBatchProcessingAccum prior batchResults).padre.Nodup ∧
    (∀ sku, (∃ r ∈ batchResults, sku ∈ r.1) →
      (handleBatchProcessingAccum prior batchResults).hijo.count sku = 1 ∧
      List.count sku ((notFoundReportSkus (handleBatchProcessingAccum prior
        batchResults)).take
          (handleBatchProcessingAccum prior batchResults).hijo.length) =
        1) ∧
    (∀ sku, (∃ r ∈ batchResults, sku ∈ r.2) →
      (handleBatchProcessingAccum prior batchResults).padre.count sku =
        1) := by
  have hnodup := foldl_batches_nodup batchResults ⟨[], []⟩
    List.nodup_nil List.nodup_nil
  refine ⟨rfl, hnodup.1, hnodup.2, ?_, ?_⟩
  · intro sku hex
    have hmem : sku ∈ (handleBatchProcessingAccum prior batchResults).hijo :=
      foldl_batches_mem_hijo batchResults ⟨[], []⟩ sku (Or.inr hex)
    have hcount := List.count_eq_one_of_mem hnodup.1 hmem
    refine ⟨hcount, ?_⟩
    simp only [notFoundReportSkus, List.take_left]
    exact hcount
  · intro sku hex
    have hmem : sku ∈ (handleBatchProcessingAccum prior batchResults).padre :=
      foldl_batches_mem_padre batchResults ⟨[], []⟩ sku (Or.inr hex)
    exact List.count_eq_one_of_mem hnodup.2 hmem

/-- Witness for C10: a SKU reported not-found by two different batches
is accumulated once, and a stale prior accumulator does not leak into
the new run. -/
theorem batch_notfound_accumulators_witness :
    (handleBatchProcessingAccum ⟨["stale"], ["stale2"]⟩
      [(["S1", "S2"], []), (["S2", "S3"], ["P1"])]).hijo.count "S2" = 1 ∧
    handleBatchProcessingAccum ⟨["stale"], ["stale2"]⟩
      [(["S1", "S2"], []), (["S2", "S3"], ["P1"])] =
      handleBatchProcessingAccum ⟨[], []⟩
        [(["S1", "S2"], []), (["S2", "S3"], ["P1"])] := by
  obtain ⟨hreset, hnh, hnp, hch, hcp⟩ :=
    batch_notfound_accumulators ⟨["stale"], ["stale2"]⟩
      [(["S1", "S2"], []), (["S2", "S3"], ["P1"])]
  exact ⟨(hch "S2" ⟨(["S1", "S2"], []), by simp, by simp⟩).1, hreset⟩

end RApp
